import Mathlib

/-!
Verification of the TaskFlow task API against its specification.

This file gives a shallow embedding, in Lean, of the task-bucketing logic
(GET and POST of pages/api/tasks/index.ts, first variant), the per-task
handlers (pages/api/tasks/[id].ts), and the extracted-task fallback
resolver with its PATCH and DELETE handlers (pages/api/extracted/index.ts).
The document store is modelled as a list of records in storage order;
queries, bulk updates and sorted reads are modelled as pure functions on
that list.  Theorems about each specification claim follow the definitions.
-/

namespace TaskFlow

/-! ### Lexicographic byte order on strings

The document store compares string fields bytewise.  All dates in this
application are ASCII strings of the shape YYYY-MM-DD and all times of the
shape HH:MM, so character-by-character comparison of code points models the
comparisons performed by the store.  -/

/-- Strict lexicographic order on character lists, by code point. -/
def lexLt : List Char → List Char → Bool
  | _, [] => false
  | [], _ :: _ => true
  | a :: as, b :: bs =>
    if a.toNat < b.toNat then true
    else if a.toNat = b.toNat then lexLt as bs
    else false

/-- Non-strict lexicographic order on character lists, by code point. -/
def lexLe : List Char → List Char → Bool
  | [], _ => true
  | _ :: _, [] => false
  | a :: as, b :: bs =>
    if a.toNat < b.toNat then true
    else if a.toNat = b.toNat then lexLe as bs
    else false

/-- Strict string comparison, as the store performs it ($lt on strings). -/
def strLt (a b : String) : Bool := lexLt a.data b.data

/-- Non-strict string comparison, as the store performs it ($lte on strings). -/
def strLe (a b : String) : Bool := lexLe a.data b.data

theorem lexLe_refl : ∀ as, lexLe as as = true
  | [] => rfl
  | a :: as => by
    simp only [lexLe, lexLe_refl as]
    split <;> simp

theorem lexLt_imp_lexLe : ∀ as bs, lexLt as bs = true → lexLe as bs = true
  | [], _, _ => rfl
  | _ :: _, [], h => by simp [lexLt] at h
  | a :: as, b :: bs, h => by
    simp only [lexLt] at h
    simp only [lexLe]
    split at h
    · simp_all
    · split at h
      · simp_all [lexLt_imp_lexLe as bs h]
      · simp at h

theorem lexLe_total : ∀ as bs, lexLe as bs = true ∨ lexLe bs as = true
  | [], _ => Or.inl rfl
  | _ :: _, [] => Or.inr rfl
  | a :: as, b :: bs => by
    simp only [lexLe]
    rcases Nat.lt_trichotomy a.toNat b.toNat with h | h | h
    · left; simp [h]
    · rcases lexLe_total as bs with ih | ih <;> simp [h, Nat.lt_irrefl, ih]
    · right; simp [h]

theorem lexLe_cons (a b : Char) (as bs : List Char) :
    lexLe (a :: as) (b :: bs) = true ↔
      (a.toNat < b.toNat ∨ (a.toNat = b.toNat ∧ lexLe as bs = true)) := by
  simp only [lexLe]
  split
  · simp_all
  · split <;> simp_all

theorem lexLe_trans :
    ∀ as bs cs, lexLe as bs = true → lexLe bs cs = true → lexLe as cs = true
  | [], _, _, _, _ => rfl
  | _ :: _, [], _, h, _ => by simp [lexLe] at h
  | _ :: _, _ :: _, [], _, h => by simp [lexLe] at h
  | a :: as, b :: bs, c :: cs, h1, h2 => by
    rw [lexLe_cons] at h1 h2 ⊢
    rcases h1 with h1 | ⟨e1, r1⟩ <;> rcases h2 with h2 | ⟨e2, r2⟩
    · left; omega
    · left; omega
    · left; omega
    · exact Or.inr ⟨by omega, lexLe_trans as bs cs r1 r2⟩

/-! ### Task data model

Embeds src/models/Task.ts (the variant with a repeating configuration,
which backs the first variant of pages/api/tasks/index.ts).  The Mongo
`_id` field is named `id` here.  Optional schema fields are `Option`s. -/

/-- The `type` field of a repeating configuration: daily, everyOther or
weekly. -/
inductive RepeatType where
  | daily
  | everyOther
  | weekly
deriving DecidableEq, Repr

/-- Embeds the RepeatingConfig subdocument of the Task schema. -/
structure RepeatingConfig where
  enabled : Bool := false
  type : Option RepeatType := none
  /-- only for weekly; `none` models a missing array (Array.isArray fails) -/
  days : Option (List Nat) := none
  startDate : Option String := none
deriving DecidableEq, Repr

/-- Embeds the Task schema.  `id` is the Mongo `_id`. -/
structure Task where
  id : String
  text : String
  description : Option String := none
  due : Option String := none
  color : Option String := none
  date : Option String := none
  completed : Bool := false
  carryOver : Bool := false
  repeating : RepeatingConfig := {}
deriving DecidableEq, Repr

/-! ### Civil-date arithmetic

`daysBetween` in pages/api/tasks/index.ts parses both YYYY-MM-DD strings at
local midnight and rounds the millisecond difference to whole days; the
result is the difference of the civil day numbers.  A malformed date gives
an Invalid Date whose NaN fails every comparison, modelled by `none`. -/

/-- Numeric value of a decimal digit character. -/
def digitVal (c : Char) : Nat := c.toNat - '0'.toNat

/-- Gregorian leap-year test. -/
def isLeap (y : Nat) : Bool := y % 4 = 0 && (y % 100 ≠ 0 || y % 400 = 0)

/-- Number of days in month `m` of year `y` (1-based months). -/
def daysInMonth (y m : Nat) : Nat :=
  if m = 2 then (if isLeap y then 29 else 28)
  else if m = 4 || m = 6 || m = 9 || m = 11 then 30
  else 31

/-- Days from the start of year `y` to the start of its month `m`. -/
def daysBeforeMonth (y m : Nat) : Nat :=
  let base :=
    if m = 1 then 0 else if m = 2 then 31 else if m = 3 then 59
    else if m = 4 then 90 else if m = 5 then 120 else if m = 6 then 151
    else if m = 7 then 181 else if m = 8 then 212 else if m = 9 then 243
    else if m = 10 then 273 else if m = 11 then 304 else 334
  if 2 < m && isLeap y then base + 1 else base

/-- Civil day number of a Y-M-D date, counted from 0001-01-01 = 0. -/
def dayNumber (y m d : Nat) : Nat :=
  365 * (y - 1) + (y - 1) / 4 - (y - 1) / 100 + (y - 1) / 400
    + daysBeforeMonth y m + (d - 1)

/-- Parses a YYYY-MM-DD string, validating the calendar ranges exactly as
the JavaScript Date constructor validates a date-time string. -/
def parseYMD (s : String) : Option (Nat × Nat × Nat) :=
  match s.data with
  | [y1, y2, y3, y4, '-', m1, m2, '-', d1, d2] =>
    if ([y1, y2, y3, y4, m1, m2, d1, d2].all Char.isDigit) then
      let y := digitVal y1 * 1000 + digitVal y2 * 100 + digitVal y3 * 10 + digitVal y4
      let m := digitVal m1 * 10 + digitVal m2
      let d := digitVal d1 * 10 + digitVal d2
      if 1 ≤ m && m ≤ 12 && 1 ≤ d && d ≤ daysInMonth y m then some (y, m, d)
      else none
    else none
  | _ => none

/-- Embeds `daysBetween` (signed difference in days from `a` to `b`);
`none` models the NaN produced by an invalid date. -/
def daysBetween (a b : String) : Option Int :=
  match parseYMD a, parseYMD b with
  | some (ya, ma, da), some (yb, mb, db) =>
    some ((dayNumber yb mb db : Int) - (dayNumber ya ma da : Int))
  | _, _ => none

/-- Weekday of a Y-M-D date with the JavaScript getDay numbering
(0 = Sunday .. 6 = Saturday). -/
def weekdayOf (y m d : Nat) : Nat := (dayNumber y m d + 1) % 7

/-- Embeds `repeatingAppliesOnDate` of pages/api/tasks/index.ts. -/
def repeatingAppliesOnDate (rep : RepeatingConfig) (targetDate : String) : Bool :=
  if !rep.enabled then false
  else
    match rep.type with
    | some .daily => true
    | some .everyOther =>
      let start := rep.startDate.getD targetDate
      match daysBetween start targetDate with
      | some diff => decide (0 ≤ diff) && decide (diff % 2 = 0)
      | none => false
    | some .weekly =>
      match parseYMD targetDate with
      | some (y, m, d) =>
        match rep.days with
        | some ds => ds.contains (weekdayOf y m d)
        | none => false
      | none => false
    | none => false

/-! ### Store queries for GET /tasks

Each `Task.find(...)` of the GET handler filters the store by the query
condition and returns the matches sorted ascending by `due`
(`.sort(\x7b due: 1 \x7d)`).  A missing `due` sorts before every string, as
missing fields do in an ascending Mongo sort.  The sort is modelled as a
stable sort of the storage order. -/

/-- Ascending order on the optional `due` field: a missing value first,
then bytewise string order. -/
def optDueLe : Option String → Option String → Bool
  | none, _ => true
  | some _, none => false
  | some a, some b => strLe a b

/-- The sort relation used by the `due`-ascending reads. -/
def dueLeProp (a b : Task) : Prop := optDueLe a.due b.due = true

instance : DecidableRel dueLeProp := fun a b =>
  inferInstanceAs (Decidable (optDueLe a.due b.due = true))

theorem optDueLe_total (a b : Option String) :
    optDueLe a b = true ∨ optDueLe b a = true := by
  match a, b with
  | none, _ => exact Or.inl rfl
  | some _, none => exact Or.inr rfl
  | some x, some y => exact lexLe_total x.data y.data

theorem optDueLe_trans {a b c : Option String}
    (h1 : optDueLe a b = true) (h2 : optDueLe b c = true) :
    optDueLe a c = true := by
  match a, b, c with
  | none, _, _ => rfl
  | some _, none, _ => simp [optDueLe] at h1
  | some _, some _, none => simp [optDueLe] at h2
  | some x, some y, some z => exact lexLe_trans x.data y.data z.data h1 h2

theorem optDueLe_refl (a : Option String) : optDueLe a a = true := by
  match a with
  | none => rfl
  | some x => exact lexLe_refl x.data

instance : IsTotal Task dueLeProp := ⟨fun a b => optDueLe_total a.due b.due⟩

instance : IsTrans Task dueLeProp := ⟨fun _ _ _ => optDueLe_trans⟩

/-- A read sorted ascending by `due`, stable in storage order. -/
def sortByDue (l : List Task) : List Task := l.insertionSort dueLeProp

/-- Mongo `\x7b date: \x7b $lt: s \x7d \x7d` on an optional string field: a
missing field never matches a string comparison. -/
def dateLtB : Option String → String → Bool
  | some d, s => strLt d s
  | none, _ => false

/-- Mongo `\x7b date: \x7b $lte: s \x7d \x7d` on an optional string field. -/
def dateLeB : Option String → String → Bool
  | some d, s => strLe d s
  | none, _ => false

/-! ### GET /tasks (first variant of pages/api/tasks/index.ts)

The handler takes the `date` query parameter (`none` when absent) and the
current local date `todayStr` (the value of `getLocalToday()`); the store
is a list of tasks.  It first flips `carryOver` on overdue incomplete
tasks when the client views today, then answers the four reads. -/

/-- Condition of the bulk `updateMany` write: incomplete, not yet carried
over, dated strictly before today. -/
def sweepCondB (todayStr : String) (t : Task) : Bool :=
  !t.completed && !t.carryOver && dateLtB t.date todayStr

/-- Effect of the bulk write on one task. -/
def sweep (todayStr : String) (t : Task) : Task :=
  if sweepCondB todayStr t then { t with carryOver := true } else t

/-- Query of the plain due-today read:
`\x7b completed: false, carryOver: false, date: selectedDate \x7d`. -/
def todayPredB (sel : String) (t : Task) : Bool :=
  !t.completed && !t.carryOver && decide (t.date = some sel)

/-- Query of the carried-over read:
`\x7b completed: false, carryOver: true, date: \x7b $lte: selectedDate \x7d \x7d`. -/
def carryPredB (sel : String) (t : Task) : Bool :=
  !t.completed && t.carryOver && dateLeB t.date sel

/-- Query of the repeating-candidate read:
`\x7b repeating.enabled: true, completed: false \x7d`. -/
def repCandPredB (t : Task) : Bool :=
  t.repeating.enabled && !t.completed

/-- The response of GET /tasks together with the store it leaves behind. -/
structure GetResult where
  store : List Task
  today : List Task
  carryOver : List Task
  completed : List Task
deriving DecidableEq, Repr

/-- Embeds the GET branch of the pages/api/tasks/index.ts handler. -/
def handlerGetTasks (store : List Task) (queryDate : Option String)
    (todayStr : String) : GetResult :=
  let selectedDate := queryDate.getD todayStr
  let store1 :=
    if selectedDate = todayStr then store.map (sweep todayStr) else store
  let todayTasksPlain := sortByDue (store1.filter (todayPredB selectedDate))
  let carryOverTasks := sortByDue (store1.filter (carryPredB selectedDate))
  let completedTasks := sortByDue (store1.filter (fun t => t.completed))
  let candidateRepeating := sortByDue (store1.filter repCandPredB)
  let repeatingForDate :=
    candidateRepeating.filter (fun t => repeatingAppliesOnDate t.repeating selectedDate)
  let existingIds := todayTasksPlain.map Task.id
  let repeatingToAdd :=
    repeatingForDate.filter (fun t => !(existingIds.contains t.id))
  { store := store1
    today := todayTasksPlain ++ repeatingToAdd
    carryOver := carryOverTasks
    completed := completedTasks }

/-! ### POST /tasks (first variant of pages/api/tasks/index.ts) -/

/-- Request body of POST /tasks.  The handler destructures only text, due,
description, date and repeating; `completed` and `carryOver` are carried
here to record that a client may send them but the handler never reads
them. -/
structure PostBody where
  text : Option String := none
  due : Option String := none
  description : Option String := none
  date : Option String := none
  repeating : Option RepeatingConfig := none
  completed : Option Bool := none
  carryOver : Option Bool := none

/-- JavaScript truthiness of an optional string: present and non-empty. -/
def truthyStr : Option String → Bool
  | none => false
  | some s => !(s = "")

/-- The response of POST /tasks together with the store it leaves behind. -/
structure PostResult where
  store : List Task
  status : Nat
  created : Option Task
deriving DecidableEq, Repr

/-- Embeds the POST branch of the pages/api/tasks/index.ts handler.
`newId` is the `_id` the store assigns to the inserted document.  The
colors array has the single entry "#8C8C8C", so the random index always
selects it. -/
def handlerPostTasks (store : List Task) (body : PostBody)
    (newId : String) : PostResult :=
  if !truthyStr body.text || !truthyStr body.date then
    { store := store, status := 400, created := none }
  else
    let task : Task :=
      { id := newId
        text := body.text.getD ""
        description := some (body.description.getD "")
        due := body.due
        color := some "#8C8C8C"
        date := body.date
        completed := false
        carryOver := false
        repeating := body.repeating.getD { enabled := false } }
    { store := store ++ [task], status := 201, created := some task }

/-! ### pages/api/tasks/[id].ts -/

/-- mongoose.Types.ObjectId.isValid, which is also the condition under
which mongoose can cast a string to an ObjectId: a 24-character hex
string or any 12-character string. -/
def isValidObjectId (s : String) : Bool :=
  (s.data.length = 24 && s.data.all (fun c => c.isDigit
      || ('a' ≤ c && c ≤ 'f') || ('A' ≤ c && c ≤ 'F')))
  || s.data.length = 12

/-- The response of DELETE /tasks/:id together with the store it leaves
behind.  For a castable id the handler ignores the result of
`findByIdAndDelete` and answers 200 with the fixed message; `message`
models the body text of the response. -/
structure TaskDeleteResult where
  store : List Task
  status : Nat
  message : String
deriving DecidableEq, Repr

/-- Embeds the DELETE branch of pages/api/tasks/[id].ts.
`findByIdAndDelete` first casts the id to an ObjectId: a non-castable id
makes the awaited call throw a CastError, and with no try/catch in this
route Next.js answers 500; a castable id removes the first matching task
(if any) and the handler unconditionally answers 200 with the fixed
message. -/
def handlerTaskDelete (store : List Task) (id : String) : TaskDeleteResult :=
  if isValidObjectId id then
    { store := store.eraseP (fun t => t.id == id)
      status := 200
      message := "Task deleted" }
  else
    { store := store, status := 500, message := "Internal Server Error" }

/-- Request body of PATCH /tasks/:id (the fields the handler
destructures). -/
structure TaskPatchBody where
  completed : Option Bool := none
  carryOver : Option Bool := none
  date : Option String := none

/-- The update document built by the PATCH handler, applied to a task:
`completed` and `carryOver` are set whenever present; `date` is set only
when the body carries `carryOver === false` together with a truthy date. -/
def applyTaskPatch (body : TaskPatchBody) (t : Task) : Task :=
  let t1 := match body.completed with
    | some c => { t with completed := c }
    | none => t
  let t2 := match body.carryOver with
    | some c => { t1 with carryOver := c }
    | none => t1
  if body.carryOver = some false && truthyStr body.date then
    { t2 with date := body.date }
  else t2

/-- Replaces the first element satisfying `p` by its image under `f`. -/
def updateFirst {α : Type} (p : α → Bool) (f : α → α) : List α → List α
  | [] => []
  | x :: xs => if p x then f x :: xs else x :: updateFirst p f xs

/-- The response of PATCH /tasks/:id together with the store it leaves
behind.  `task` is null when no document matched the id. -/
structure TaskPatchResult where
  store : List Task
  status : Nat
  task : Option Task
deriving DecidableEq, Repr

/-- Embeds the PATCH branch of pages/api/tasks/[id].ts
(`findByIdAndUpdate` with `new: true`; status 200 even when nothing
matched). -/
def handlerTaskPatch (store : List Task) (id : String)
    (body : TaskPatchBody) : TaskPatchResult :=
  match store.find? (fun t => t.id == id) with
  | some t =>
    { store := updateFirst (fun u => u.id == id) (applyTaskPatch body) store
      status := 200
      task := some (applyTaskPatch body t) }
  | none => { store := store, status := 200, task := none }

/-! ### Extracted-task data model

Embeds src/models/ExtractedTasks.ts.  `id` is the Mongo `_id` and
`source_account` the schema field `_source_account`.  The `confidence`
field (a floating-point score, unused by every lookup and by the PATCH and
DELETE handlers) is not carried. -/

/-- Embeds the ExtractedTask schema. -/
structure ExtractedTask where
  id : String
  title : String
  description : Option String := none
  date : Option String := none
  time : Option String := none
  source_subject : Option String := none
  source_from : Option String := none
  source_account : String := "all_accounts"
  source_email_ts : Option String := none
  addedToCalendar : Bool := false
deriving DecidableEq, Repr

/-! ### The two extraction regexes of findTaskByIdOrFallback

The resolver extracts the first match of the JavaScript regexes
`[\w.+-]+@[\w.-]+\.\w+` (an email-shaped substring) and
`\d\x7b4\x7d-\d\x7b2\x7d-\d\x7b2\x7dT\d\x7b2\x7d:\d\x7b2\x7d:\d\x7b2\x7d(?:\.\d+)?`
(an ISO-timestamp-shaped substring) from the candidate.  The matchers
below implement the leftmost-greedy-with-backtracking semantics of those
two patterns. -/

/-- The character class \w. -/
def isWordChar (c : Char) : Bool := c.isAlphanum || c = '_'

/-- The character class [\w.+-] of the local part. -/
def isEmailLocalChar (c : Char) : Bool :=
  isWordChar c || c = '.' || c = '+' || c = '-'

/-- The character class [\w.-] of the domain part. -/
def isEmailDomainChar (c : Char) : Bool := isWordChar c || c = '.' || c = '-'

/-- Backtracking search for the greedy split of `[\w.-]+\.\w+` at the head
of `rest`: tries the longest `[\w.-]+` segment first (length `k`, counting
down), requiring a dot right after it followed by at least one word
character; returns the full matched prefix. -/
def domainGo (rest : List Char) : Nat → Option (List Char)
  | 0 => none
  | k + 1 =>
    if rest.get? (k + 1) = some '.'
        && ((rest.drop (k + 2)).head?.elim false isWordChar) then
      some (rest.take (k + 1) ++ '.' :: (rest.drop (k + 2)).takeWhile isWordChar)
    else domainGo rest k

/-- Attempts the email pattern anchored at the head of `l`, returning the
matched characters.  The local part is the maximal run of [\w.+-] (it can
never end earlier, since @ is outside the class); the domain part
backtracks greedily for the final `\.\w+`. -/
def emailMatchAt (l : List Char) : Option (List Char) :=
  let lcl := l.takeWhile isEmailLocalChar
  if lcl.isEmpty then none
  else
    match l.drop lcl.length with
    | '@' :: rest =>
      match domainGo rest (rest.takeWhile isEmailDomainChar).length with
      | some dom => some (lcl ++ '@' :: dom)
      | none => none
    | _ => none

/-- Attempts the ISO-timestamp pattern anchored at the head of the list,
with the optional greedy fractional-seconds group. -/
def isoMatchAt : List Char → Option (List Char)
  | y1 :: y2 :: y3 :: y4 :: '-' :: m1 :: m2 :: '-' :: d1 :: d2 :: 'T'
      :: h1 :: h2 :: ':' :: n1 :: n2 :: ':' :: s1 :: s2 :: rest =>
    if ([y1, y2, y3, y4, m1, m2, d1, d2, h1, h2, n1, n2, s1, s2].all Char.isDigit) then
      let base := [y1, y2, y3, y4, '-', m1, m2, '-', d1, d2, 'T',
                   h1, h2, ':', n1, n2, ':', s1, s2]
      match rest with
      | '.' :: r2 =>
        let frac := r2.takeWhile Char.isDigit
        if frac.isEmpty then some base else some (base ++ '.' :: frac)
      | _ => some base
    else none
  | _ => none

/-- First (leftmost) match of an anchored matcher, as String.match
returns it. -/
def scanFirst (f : List Char → Option (List Char)) : List Char → Option (List Char)
  | [] => f []
  | c :: rest =>
    match f (c :: rest) with
    | some m => some m
    | none => scanFirst f rest

/-- The email-shaped substring the resolver extracts from a candidate. -/
def emailOf (candidate : String) : Option (List Char) :=
  scanFirst emailMatchAt candidate.data

/-- The timestamp-shaped substring the resolver extracts from a
candidate. -/
def isoTsOf (candidate : String) : Option (List Char) :=
  scanFirst isoMatchAt candidate.data

/-! ### Title-candidate cleanup of strategy 6 -/

/-- JavaScript String.replace with a string pattern: replaces the first
occurrence only. -/
def replaceFirst (needle repl : List Char) : List Char → List Char
  | [] => if needle.isEmpty then repl else []
  | c :: t =>
    if needle.isPrefixOf (c :: t) then repl ++ (c :: t).drop needle.length
    else c :: replaceFirst needle repl t

/-- The separator class [-_]. -/
def isSep (c : Char) : Bool := c = '-' || c = '_'

/-- Global replacement of `[-_]+` runs by single spaces; the flag records
whether the previous character belonged to a run. -/
def collapseSepsGo : Bool → List Char → List Char
  | _, [] => []
  | prevSep, c :: t =>
    if isSep c then
      if prevSep then collapseSepsGo true t else ' ' :: collapseSepsGo true t
    else c :: collapseSepsGo false t

/-- `replace(/[-_]+/g, " ")`. -/
def collapseSeps (l : List Char) : List Char := collapseSepsGo false l

/-- JavaScript whitespace trim (the characters that can occur here are
ASCII). -/
def isWs (c : Char) : Bool := c = ' ' || c = '\t' || c = '\n' || c = '\r'

/-- String.trim on both ends. -/
def trimChars (l : List Char) : List Char :=
  ((l.dropWhile isWs).reverse.dropWhile isWs).reverse

/-- The cleaned title candidate of strategy 6: first occurrences of the
email and timestamp matches blanked, separator runs collapsed, ends
trimmed. -/
def titleCandidateOf (candidate : String) : List Char :=
  let c0 := candidate.data
  let c1 := match emailOf candidate with
    | some e => replaceFirst e [' '] c0
    | none => c0
  let c2 := match isoTsOf candidate with
    | some ts => replaceFirst ts [' '] c1
    | none => c1
  trimChars (collapseSeps c2)

/-- Contiguous-substring test, for the escaped-regex title query. -/
def containsSub (needle : List Char) : List Char → Bool
  | [] => needle.isEmpty
  | c :: t => needle.isPrefixOf (c :: t) || containsSub needle t

/-! ### The six lookup strategies and the resolver -/

/-- Strategy 1: findById, only attempted on a valid ObjectId string. -/
def strategy1 (store : List ExtractedTask) (candidate : String) :
    Option ExtractedTask :=
  if isValidObjectId candidate then store.find? (fun t => t.id == candidate)
  else none

/-- Strategy 2: literal equality on the `_id` field. -/
def strategy2 (store : List ExtractedTask) (candidate : String) :
    Option ExtractedTask :=
  store.find? (fun t => t.id == candidate)

/-- Strategy 3: the `(_source_account, source_email_ts)` pair extracted
from the candidate, attempted only when both an email-shaped and a
timestamp-shaped substring are present. -/
def strategy3 (store : List ExtractedTask) (candidate : String) :
    Option ExtractedTask :=
  match emailOf candidate, isoTsOf candidate with
  | some e, some ts =>
    store.find? (fun t =>
      t.source_account == String.mk e && t.source_email_ts == some (String.mk ts))
  | _, _ => none

/-- Strategy 4: timestamp-only lookup. -/
def strategy4 (store : List ExtractedTask) (candidate : String) :
    Option ExtractedTask :=
  match isoTsOf candidate with
  | some ts => store.find? (fun t => t.source_email_ts == some (String.mk ts))
  | none => none

/-- Strategy 5: account-only lookup. -/
def strategy5 (store : List ExtractedTask) (candidate : String) :
    Option ExtractedTask :=
  match emailOf candidate with
  | some e => store.find? (fun t => t.source_account == String.mk e)
  | none => none

/-- Strategy 6: case-insensitive substring match of the cleaned candidate
against `title`, only when the cleaned candidate has at least 3
characters. -/
def strategy6 (store : List ExtractedTask) (candidate : String) :
    Option ExtractedTask :=
  let tc := titleCandidateOf candidate
  if 3 ≤ tc.length then
    store.find? (fun t =>
      containsSub (tc.map Char.toLower) (t.title.data.map Char.toLower))
  else none

/-- Embeds `findTaskByIdOrFallback` of pages/api/extracted/index.ts: the
six strategies in order, first match wins, tagged with the reason string
the code attaches; `none` when no strategy matches.  Query failures are
caught in the source and treated as non-matches, which the pure model
renders as `none` results of the individual strategies. -/
def findTaskByIdOrFallback (store : List ExtractedTask) (candidate : String) :
    Option (ExtractedTask × String) :=
  if candidate = "" then none
  else
    match strategy1 store candidate with
    | some t => some (t, "by_id_objectid")
    | none =>
      match strategy2 store candidate with
      | some t => some (t, "by_id_literal")
      | none =>
        match strategy3 store candidate with
        | some t => some (t, "by_account_and_ts")
        | none =>
          match strategy4 store candidate with
          | some t => some (t, "by_ts")
          | none =>
            match strategy5 store candidate with
            | some t => some (t, "by_account")
            | none =>
              match strategy6 store candidate with
              | some t => some (t, "by_title")
              | none => none

/-! ### DELETE and PATCH /extracted -/

/-- The response of DELETE /extracted together with the store it leaves
behind. -/
structure ExtractedDeleteResult where
  store : List ExtractedTask
  status : Nat
  deletedId : Option String := none
  fallback : Option String := none
deriving DecidableEq, Repr

/-- Embeds the DELETE branch of the pages/api/extracted/index.ts handler:
objectid deletion, then literal `_id` deletion, then the fallback
resolver followed by `findByIdAndDelete` of the resolved record; 404 when
nothing matches. -/
def extractedDeleteHandler (store : List ExtractedTask)
    (idq : Option String) : ExtractedDeleteResult :=
  match idq with
  | none => { store := store, status := 400 }
  | some id =>
    if id = "" then { store := store, status := 400 }
    else
      match strategy1 store id with
      | some t =>
        { store := store.eraseP (fun u => u.id == t.id)
          status := 200, deletedId := some t.id }
      | none =>
        match strategy2 store id with
        | some t =>
          { store := store.eraseP (fun u => u.id == t.id)
            status := 200, deletedId := some t.id, fallback := some "literal_id" }
        | none =>
          match findTaskByIdOrFallback store id with
          | some (t, reason) =>
            match store.find? (fun u => u.id == t.id) with
            | some u =>
              { store := store.eraseP (fun v => v.id == u.id)
                status := 200, deletedId := some u.id, fallback := some reason }
            | none => { store := store, status := 404 }
          | none => { store := store, status := 404 }

/-- Request body of PATCH /extracted. -/
structure ExtractedPatchBody where
  id : Option String := none
  addedToCalendar : Option Bool := none

/-- The update the PATCH handler applies: `$set` of `addedToCalendar`;
an absent body value is stripped by mongoose and changes nothing. -/
def applyCalendarPatch (v : Option Bool) (t : ExtractedTask) : ExtractedTask :=
  { t with addedToCalendar := v.getD t.addedToCalendar }

/-- The response of PATCH /extracted together with the store it leaves
behind. -/
structure ExtractedPatchResult where
  store : List ExtractedTask
  status : Nat
  updated : Option ExtractedTask := none
deriving DecidableEq, Repr

/-- Embeds the PATCH branch of the pages/api/extracted/index.ts handler:
objectid update, then literal `_id` update, then the fallback resolver
followed by `findByIdAndUpdate` of the resolved record; 404 when nothing
matches. -/
def extractedPatchHandler (store : List ExtractedTask)
    (body : ExtractedPatchBody) : ExtractedPatchResult :=
  match body.id with
  | none => { store := store, status := 400 }
  | some id =>
    if id = "" then { store := store, status := 400 }
    else
      let upd := applyCalendarPatch body.addedToCalendar
      match strategy1 store id with
      | some t =>
        { store := updateFirst (fun u => u.id == t.id) upd store
          status := 200, updated := some (upd t) }
      | none =>
        match strategy2 store id with
        | some t =>
          { store := updateFirst (fun u => u.id == t.id) upd store
            status := 200, updated := some (upd t) }
        | none =>
          match findTaskByIdOrFallback store id with
          | some (t, _) =>
            match store.find? (fun u => u.id == t.id) with
            | some u =>
              { store := updateFirst (fun v => v.id == u.id) upd store
                status := 200, updated := some (upd u) }
            | none => { store := store, status := 404 }
          | none => { store := store, status := 404 }

/-! ### Helper lemmas -/

theorem mem_sortByDue {t : Task} {l : List Task} : t ∈ sortByDue l ↔ t ∈ l :=
  List.mem_insertionSort dueLeProp

theorem sweep_of_completed {todayStr : String} {t : Task}
    (h : t.completed = true) : sweep todayStr t = t := by
  simp [sweep, sweepCondB, h]

theorem sweep_completed (todayStr : String) (t : Task) :
    (sweep todayStr t).completed = t.completed := by
  unfold sweep; split <;> rfl

theorem sweep_repeating (todayStr : String) (t : Task) :
    (sweep todayStr t).repeating = t.repeating := by
  unfold sweep; split <;> rfl

theorem sweep_idem (todayStr : String) (t : Task) :
    sweep todayStr (sweep todayStr t) = sweep todayStr t := by
  by_cases h : sweepCondB todayStr t = true
  · have h2 : sweepCondB todayStr { t with carryOver := true } = false := by
      simp [sweepCondB]
    simp [sweep, h, h2]
  · simp [sweep, h]

theorem sweep_eq_setCarry {todayStr d : String} {t : Task}
    (h1 : t.completed = false) (hd : t.date = some d)
    (hlt : strLt d todayStr = true) :
    sweep todayStr t = { t with carryOver := true } := by
  cases hco : t.carryOver
  · have : sweepCondB todayStr t = true := by
      simp [sweepCondB, h1, hco, hd, dateLtB, hlt]
    simp [sweep, this]
  · have : sweepCondB todayStr t = false := by simp [sweepCondB, hco]
    cases t
    simp_all [sweep]

theorem mem_store1 {store : List Task} {t : Task} (hmem : t ∈ store)
    (hfix : ∀ s : String, sweep s t = t) (sel todayStr : String) :
    t ∈ (if sel = todayStr then store.map (sweep todayStr) else store) := by
  split
  · exact List.mem_map.mpr ⟨t, hmem, hfix todayStr⟩
  · exact hmem

theorem map_updateFirst {α β : Type} (p : α → Bool) (g : α → α) (f : α → β)
    (h : ∀ x, f (g x) = f x) : ∀ l : List α, (updateFirst p g l).map f = l.map f
  | [] => rfl
  | x :: xs => by
    by_cases hp : p x = true <;>
      simp [updateFirst, hp, h x, map_updateFirst p g f h xs]

theorem carryPredB_eq_true {sel : String} {t : Task} :
    carryPredB sel t = true ↔
      (t.completed = false ∧ t.carryOver = true ∧ dateLeB t.date sel = true) := by
  simp [carryPredB, and_assoc]

theorem todayPredB_eq_true {sel : String} {t : Task} :
    todayPredB sel t = true ↔
      (t.completed = false ∧ t.carryOver = false ∧ t.date = some sel) := by
  simp [todayPredB, and_assoc]

theorem repCandPredB_eq_true {t : Task} :
    repCandPredB t = true ↔ (t.repeating.enabled = true ∧ t.completed = false) := by
  simp [repCandPredB]

/-! ### Demo fixtures used by witnesses and counterexamples -/

/-- A plain task due today at 10:00. -/
def taskA : Task :=
  { id := "a", text := "write report", due := some "10:00",
    date := some "2024-01-02" }

/-- A carried-over daily-repeating task due at 09:00. -/
def taskB : Task :=
  { id := "b", text := "standup", due := some "09:00",
    date := some "2024-01-02", carryOver := true,
    repeating := { enabled := true, type := some .daily } }

/-- An incomplete task dated before 2024-01-02. -/
def taskC : Task :=
  { id := "c", text := "old errand", date := some "2024-01-01" }

/-- A completed task with an old date and the carryOver flag set. -/
def taskD : Task :=
  { id := "d", text := "done thing", due := some "08:00",
    date := some "2023-12-30", completed := true, carryOver := true }

/-- An incomplete task dated after 2024-01-02. -/
def taskE : Task :=
  { id := "e", text := "future plan", date := some "2024-01-03" }

/-- Another plain task due today at 10:00 (same due as taskA). -/
def taskF : Task :=
  { id := "f", text := "second report", due := some "10:00",
    date := some "2024-01-02" }

/-! ### Claim theorems -/

/-- C4: a GET /tasks request whose `date` query parameter differs from
today performs no write: the stored tasks are unchanged after the
request. -/
theorem getTasks_pastDate_no_write (store : List Task) (d todayStr : String)
    (hne : d ≠ todayStr) :
    (handlerGetTasks store (some d) todayStr).store = store := by
  simp [handlerGetTasks, hne]

theorem getTasks_pastDate_no_write_witness :
    "2024-01-01" ≠ "2024-01-02" ∧
    (handlerGetTasks [taskA, taskC] (some "2024-01-01") "2024-01-02").store
      = [taskA, taskC] :=
  ⟨by decide, getTasks_pastDate_no_write [taskA, taskC] "2024-01-01" "2024-01-02"
    (by decide)⟩

/-- C7, counterexample: with no task stored, DELETE /tasks/:id still
responds 200 with the fixed message "Task deleted"; the claimed 404 for a
missing task never happens, and the body carries no deleted id. -/
theorem tasksDelete_notFound_200_cex :
    (handlerTaskDelete [] "aaaaaaaaaaaaaaaaaaaaaaaa").status = 200 ∧
    (handlerTaskDelete [] "aaaaaaaaaaaaaaaaaaaaaaaa").status ≠ 404 ∧
    (handlerTaskDelete [] "aaaaaaaaaaaaaaaaaaaaaaaa").message = "Task deleted" := by
  decide

/-- C7, amended: for an ObjectId-castable id, DELETE /tasks/:id always
responds 200 with the fixed message "Task deleted", whether or not a
task with that id exists; it performs no fallback lookup, never responds
404, and does not return the deleted id.  The first stored task with
that id, if any, is removed, and no task is added.  For a non-castable
id the uncaught CastError of `findByIdAndDelete` makes the route respond
500 with the store unchanged. -/
theorem tasksDelete_no_404 (store : List Task) (id : String) :
    (isValidObjectId id = true →
      (handlerTaskDelete store id).status = 200 ∧
      (handlerTaskDelete store id).message = "Task deleted" ∧
      (handlerTaskDelete store id).store = store.eraseP (fun t => t.id == id) ∧
      (handlerTaskDelete store id).store.Sublist store) ∧
    (isValidObjectId id = false →
      (handlerTaskDelete store id).status = 500 ∧
      (handlerTaskDelete store id).store = store) := by
  constructor
  · intro h
    have e : handlerTaskDelete store id =
        { store := store.eraseP (fun t => t.id == id), status := 200,
          message := "Task deleted" } := by
      simp [handlerTaskDelete, h]
    rw [e]
    exact ⟨rfl, rfl, rfl, List.eraseP_sublist store⟩
  · intro h
    have e : handlerTaskDelete store id =
        { store := store, status := 500, message := "Internal Server Error" } := by
      simp [handlerTaskDelete, h]
    rw [e]
    exact ⟨rfl, rfl⟩

theorem tasksDelete_no_404_witness :
    isValidObjectId "aaaaaaaaaaaaaaaaaaaaaaaa" = true ∧
    (handlerTaskDelete [taskA] "aaaaaaaaaaaaaaaaaaaaaaaa").status = 200 ∧
    (handlerTaskDelete [taskA] "aaaaaaaaaaaaaaaaaaaaaaaa").message = "Task deleted" ∧
    isValidObjectId "foo" = false ∧
    (handlerTaskDelete [taskA] "foo").status = 500 := by
  refine ⟨by decide, ?_, ?_, by decide, ?_⟩
  · exact ((tasksDelete_no_404 [taskA] "aaaaaaaaaaaaaaaaaaaaaaaa").1 (by decide)).1
  · exact ((tasksDelete_no_404 [taskA] "aaaaaaaaaaaaaaaaaaaaaaaa").1 (by decide)).2.1
  · exact ((tasksDelete_no_404 [taskA] "foo").2 (by decide)).1

/-- C8: every completed stored task is placed in the completed bucket of
the GET /tasks response, regardless of its date or carryOver values. -/
theorem getTasks_completed_in_done (store : List Task) (q : Option String)
    (todayStr : String) (t : Task) (hmem : t ∈ store)
    (hc : t.completed = true) :
    t ∈ (handlerGetTasks store q todayStr).completed := by
  simp only [handlerGetTasks]
  rw [mem_sortByDue, List.mem_filter]
  exact ⟨mem_store1 hmem (fun _ => sweep_of_completed hc) _ _, hc⟩

theorem getTasks_completed_in_done_witness :
    taskD ∈ [taskA, taskD] ∧ taskD.completed = true ∧
    taskD ∈ (handlerGetTasks [taskA, taskD] none "2024-01-02").completed :=
  ⟨by decide, by decide,
    getTasks_completed_in_done [taskA, taskD] none "2024-01-02" taskD
      (by decide) (by decide)⟩

/-- C9: a POST /tasks request with a truthy text and date creates the
task with completed = false and carryOver = false, whatever `completed`
or `carryOver` values the request body carries. -/
theorem postTasks_defaults (store : List Task) (body : PostBody)
    (newId : String) (ht : truthyStr body.text = true)
    (hd : truthyStr body.date = true) :
    (handlerPostTasks store body newId).status = 201 ∧
    ((handlerPostTasks store body newId).created.map
        (fun u => (u.completed, u.carryOver))) = some (false, false) := by
  simp [handlerPostTasks, ht, hd]

theorem postTasks_defaults_witness :
    truthyStr (some "pay rent") = true ∧ truthyStr (some "2024-01-05") = true ∧
    (handlerPostTasks []
        { text := some "pay rent", date := some "2024-01-05",
          completed := some true, carryOver := some true } "nid").status = 201 ∧
    ((handlerPostTasks []
        { text := some "pay rent", date := some "2024-01-05",
          completed := some true, carryOver := some true } "nid").created.map
        (fun u => (u.completed, u.carryOver))) = some (false, false) := by
  refine ⟨by decide, by decide, ?_⟩
  exact postTasks_defaults []
    { text := some "pay rent", date := some "2024-01-05",
      completed := some true, carryOver := some true } "nid"
    (by decide) (by decide)

/-- The PATCH /tasks/:id update leaves `date` unchanged whenever the body
does not carry `carryOver = false`. -/
theorem applyTaskPatch_date {body : TaskPatchBody} (t : Task)
    (hco : body.carryOver ≠ some false) :
    (applyTaskPatch body t).date = t.date := by
  have hif : (body.carryOver = some false && truthyStr body.date) = false := by
    simp [hco]
  unfold applyTaskPatch
  simp only [hif, Bool.false_eq_true, if_false]
  cases body.completed <;> cases body.carryOver <;> rfl

/-- C10: PATCH /tasks/:id with a `date` in the body but without
`carryOver = false` leaves every stored date unchanged (the matched task
keeps its date), while the `completed` and `carryOver` updates are
applied independently of the date guard. -/
theorem patchTasks_date_guard (store : List Task) (id : String)
    (body : TaskPatchBody) (t : Task) (d : String)
    (hfind : store.find? (fun u => u.id == id) = some t)
    (hdate : body.date = some d)
    (hco : body.carryOver ≠ some false) :
    (handlerTaskPatch store id body).task = some (applyTaskPatch body t) ∧
    (applyTaskPatch body t).date = t.date ∧
    (applyTaskPatch body t).completed = body.completed.getD t.completed ∧
    (applyTaskPatch body t).carryOver = body.carryOver.getD t.carryOver ∧
    (handlerTaskPatch store id body).store.map Task.date = store.map Task.date := by
  have hif : (body.carryOver = some false && truthyStr body.date) = false := by
    simp [hco]
  refine ⟨by simp [handlerTaskPatch, hfind], applyTaskPatch_date t hco, ?_, ?_, ?_⟩
  · unfold applyTaskPatch
    simp only [hif, Bool.false_eq_true, if_false]
    cases body.completed <;> cases body.carryOver <;> rfl
  · unfold applyTaskPatch
    simp only [hif, Bool.false_eq_true, if_false]
    cases body.completed <;> cases body.carryOver <;> rfl
  · simp only [handlerTaskPatch, hfind]
    exact map_updateFirst _ _ _ (fun x => applyTaskPatch_date x hco) store

theorem patchTasks_date_guard_witness :
    [taskC].find? (fun u => u.id == "c") = some taskC ∧
    (handlerTaskPatch [taskC] "c"
        { completed := some true, carryOver := some true,
          date := some "2024-01-09" }).task
      = some (applyTaskPatch
          { completed := some true, carryOver := some true,
            date := some "2024-01-09" } taskC) ∧
    (applyTaskPatch
        { completed := some true, carryOver := some true,
          date := some "2024-01-09" } taskC).date = taskC.date := by
  refine ⟨by decide, ?_, ?_⟩
  · exact (patchTasks_date_guard [taskC] "c"
      { completed := some true, carryOver := some true, date := some "2024-01-09" }
      taskC "2024-01-09" (by decide) (by decide) (by decide)).1
  · exact (patchTasks_date_guard [taskC] "c"
      { completed := some true, carryOver := some true, date := some "2024-01-09" }
      taskC "2024-01-09" (by decide) (by decide) (by decide)).2.1

/-- C3: a GET /tasks pass viewing today sets carryOver on every stored
incomplete task dated strictly before today, places its updated form in
the carried bucket of the same response, and a second pass leaves the
stored tasks unchanged (the bulk flip is idempotent). -/
theorem carryOver_sweep_idempotent (store : List Task) (todayStr : String)
    (t : Task) (d : String) (hmem : t ∈ store) (hc : t.completed = false)
    (hd : t.date = some d) (hlt : strLt d todayStr = true) :
    { t with carryOver := true } ∈ (handlerGetTasks store none todayStr).store ∧
    { t with carryOver := true } ∈ (handlerGetTasks store none todayStr).carryOver ∧
    (handlerGetTasks (handlerGetTasks store none todayStr).store none todayStr).store
      = (handlerGetTasks store none todayStr).store := by
  have hswe : sweep todayStr t = { t with carryOver := true } :=
    sweep_eq_setCarry hc hd hlt
  have hs1 : (handlerGetTasks store none todayStr).store
      = store.map (sweep todayStr) := by
    simp [handlerGetTasks]
  have e2 : (handlerGetTasks store none todayStr).carryOver
      = sortByDue ((handlerGetTasks store none todayStr).store.filter
          (carryPredB todayStr)) := rfl
  refine ⟨?_, ?_, ?_⟩
  · rw [hs1]
    exact List.mem_map.mpr ⟨t, hmem, hswe⟩
  · rw [e2, hs1, mem_sortByDue, List.mem_filter, carryPredB_eq_true]
    refine ⟨List.mem_map.mpr ⟨t, hmem, hswe⟩, hc, rfl, ?_⟩
    show dateLeB t.date todayStr = true
    rw [hd]
    exact lexLt_imp_lexLe _ _ hlt
  · have hs2 : (handlerGetTasks (store.map (sweep todayStr)) none todayStr).store
        = (store.map (sweep todayStr)).map (sweep todayStr) := by
      simp [handlerGetTasks]
    rw [hs1, hs2, List.map_map]
    exact List.map_congr_left (fun a _ => sweep_idem todayStr a)

theorem carryOver_sweep_idempotent_witness :
    taskC ∈ [taskC, taskA] ∧ taskC.completed = false ∧
    taskC.date = some "2024-01-01" ∧ strLt "2024-01-01" "2024-01-02" = true ∧
    { taskC with carryOver := true }
      ∈ (handlerGetTasks [taskC, taskA] none "2024-01-02").carryOver ∧
    (handlerGetTasks (handlerGetTasks [taskC, taskA] none "2024-01-02").store
        none "2024-01-02").store
      = (handlerGetTasks [taskC, taskA] none "2024-01-02").store := by
  refine ⟨by decide, by decide, by decide, by decide, ?_, ?_⟩
  · exact (carryOver_sweep_idempotent [taskC, taskA] "2024-01-02" taskC
      "2024-01-01" (by decide) (by decide) (by decide) (by decide)).2.1
  · exact (carryOver_sweep_idempotent [taskC, taskA] "2024-01-02" taskC
      "2024-01-01" (by decide) (by decide) (by decide) (by decide)).2.2

/-- C1, counterexample: viewing 2024-01-02, the incomplete future-dated
taskE is stored but appears in none of the three buckets, and the
carried-over daily-repeating taskB appears in both the today and the
carryOver buckets, so a stored task is not always in exactly one
bucket. -/
theorem bucket_exactly_one_cex :
    taskE ∈ (handlerGetTasks [taskE, taskB] none "2024-01-02").store ∧
    taskE ∉ (handlerGetTasks [taskE, taskB] none "2024-01-02").today ∧
    taskE ∉ (handlerGetTasks [taskE, taskB] none "2024-01-02").carryOver ∧
    taskE ∉ (handlerGetTasks [taskE, taskB] none "2024-01-02").completed ∧
    taskB ∈ (handlerGetTasks [taskE, taskB] none "2024-01-02").today ∧
    taskB ∈ (handlerGetTasks [taskE, taskB] none "2024-01-02").carryOver := by
  decide

/-- C1, amended: a stored task without repeating enabled is in at most one
bucket of the GET /tasks response, with membership decided by `completed`
first, then `carryOver` with a date at or before the viewed date, then
date equality with the viewed date; an incomplete non-carried task dated
other than the viewed date (and a carried task dated after it) is in no
bucket, and a repeating task may additionally enter the today bucket. -/
theorem bucket_membership (store : List Task) (q : Option String)
    (todayStr : String) (t : Task)
    (hmem : t ∈ (handlerGetTasks store q todayStr).store)
    (hnr : t.repeating.enabled = false) :
    (t ∈ (handlerGetTasks store q todayStr).completed ↔ t.completed = true) ∧
    (t ∈ (handlerGetTasks store q todayStr).carryOver ↔
      (t.completed = false ∧ t.carryOver = true ∧
        dateLeB t.date (q.getD todayStr) = true)) ∧
    (t ∈ (handlerGetTasks store q todayStr).today ↔
      (t.completed = false ∧ t.carryOver = false ∧
        t.date = some (q.getD todayStr))) ∧
    ¬(t ∈ (handlerGetTasks store q todayStr).today ∧
      t ∈ (handlerGetTasks store q todayStr).carryOver) ∧
    ¬(t ∈ (handlerGetTasks store q todayStr).today ∧
      t ∈ (handlerGetTasks store q todayStr).completed) ∧
    ¬(t ∈ (handlerGetTasks store q todayStr).carryOver ∧
      t ∈ (handlerGetTasks store q todayStr).completed) := by
  have e1 : (handlerGetTasks store q todayStr).completed
      = sortByDue ((handlerGetTasks store q todayStr).store.filter
          (fun u => u.completed)) := rfl
  have e2 : (handlerGetTasks store q todayStr).carryOver
      = sortByDue ((handlerGetTasks store q todayStr).store.filter
          (carryPredB (q.getD todayStr))) := rfl
  have e3 : (handlerGetTasks store q todayStr).today
      = sortByDue ((handlerGetTasks store q todayStr).store.filter
          (todayPredB (q.getD todayStr)))
        ++ (((sortByDue ((handlerGetTasks store q todayStr).store.filter
              repCandPredB)).filter
            (fun u => repeatingAppliesOnDate u.repeating (q.getD todayStr))).filter
          (fun u => !(((sortByDue ((handlerGetTasks store q todayStr).store.filter
              (todayPredB (q.getD todayStr)))).map Task.id).contains u.id))) := rfl
  have hdone : t ∈ (handlerGetTasks store q todayStr).completed ↔
      t.completed = true := by
    rw [e1, mem_sortByDue, List.mem_filter]
    exact ⟨fun h => h.2, fun h => ⟨hmem, h⟩⟩
  have hcarry : t ∈ (handlerGetTasks store q todayStr).carryOver ↔
      (t.completed = false ∧ t.carryOver = true ∧
        dateLeB t.date (q.getD todayStr) = true) := by
    rw [e2, mem_sortByDue, List.mem_filter, carryPredB_eq_true]
    exact ⟨fun h => h.2, fun h => ⟨hmem, h⟩⟩
  have htoday : t ∈ (handlerGetTasks store q todayStr).today ↔
      (t.completed = false ∧ t.carryOver = false ∧
        t.date = some (q.getD todayStr)) := by
    rw [e3, List.mem_append]
    constructor
    · rintro (h | h)
      · rw [mem_sortByDue, List.mem_filter] at h
        exact todayPredB_eq_true.mp h.2
      · exfalso
        have h2 := (List.mem_filter.mp (List.mem_filter.mp h).1).1
        have h3 := (List.mem_filter.mp (mem_sortByDue.mp h2)).2
        rw [repCandPredB_eq_true] at h3
        rw [hnr] at h3
        exact Bool.false_ne_true h3.1
    · intro h
      left
      rw [mem_sortByDue, List.mem_filter, todayPredB_eq_true]
      exact ⟨hmem, h⟩
  refine ⟨hdone, hcarry, htoday, ?_, ?_, ?_⟩
  · rintro ⟨ha, hb⟩
    rw [htoday] at ha
    rw [hcarry] at hb
    rw [ha.2.1] at hb
    exact Bool.false_ne_true hb.2.1
  · rintro ⟨ha, hb⟩
    rw [htoday] at ha
    rw [hdone] at hb
    rw [ha.1] at hb
    exact Bool.false_ne_true hb
  · rintro ⟨ha, hb⟩
    rw [hcarry] at ha
    rw [hdone] at hb
    rw [ha.1] at hb
    exact Bool.false_ne_true hb

theorem bucket_membership_witness :
    taskA ∈ (handlerGetTasks [taskA, taskD] none "2024-01-02").store ∧
    taskA.repeating.enabled = false ∧
    ((taskA ∈ (handlerGetTasks [taskA, taskD] none "2024-01-02").completed ↔
        taskA.completed = true) ∧
      (taskA ∈ (handlerGetTasks [taskA, taskD] none "2024-01-02").carryOver ↔
        (taskA.completed = false ∧ taskA.carryOver = true ∧
          dateLeB taskA.date "2024-01-02" = true)) ∧
      (taskA ∈ (handlerGetTasks [taskA, taskD] none "2024-01-02").today ↔
        (taskA.completed = false ∧ taskA.carryOver = false ∧
          taskA.date = some "2024-01-02")) ∧
      ¬(taskA ∈ (handlerGetTasks [taskA, taskD] none "2024-01-02").today ∧
        taskA ∈ (handlerGetTasks [taskA, taskD] none "2024-01-02").carryOver) ∧
      ¬(taskA ∈ (handlerGetTasks [taskA, taskD] none "2024-01-02").today ∧
        taskA ∈ (handlerGetTasks [taskA, taskD] none "2024-01-02").completed) ∧
      ¬(taskA ∈ (handlerGetTasks [taskA, taskD] none "2024-01-02").carryOver ∧
        taskA ∈ (handlerGetTasks [taskA, taskD] none "2024-01-02").completed)) :=
  ⟨by decide, by decide,
    bucket_membership [taskA, taskD] none "2024-01-02" taskA (by decide) (by decide)⟩

/-- C2, counterexample: with a plain task due 10:00 and a carried-over
daily-repeating task due 09:00 both stored, the today bucket is the plain
segment followed by the repeating segment, which is not sorted ascending
by `due`. -/
theorem due_sorted_cex :
    (handlerGetTasks [taskA, taskB] none "2024-01-02").today = [taskA, taskB] ∧
    optDueLe taskA.due taskB.due = false ∧
    ¬(handlerGetTasks [taskA, taskB] none "2024-01-02").today.Pairwise dueLeProp := by
  decide

/-- C2, amended: when no stored task has repeating enabled, the today
bucket of GET /tasks is exactly the due-sorted plain read, so it is
sorted ascending by `due`, and any two tasks in `due` order in the
(post-write) stored order that satisfy the read's query keep their
relative order — in particular two tasks with equal `due` keep their
stored order.  With repeating tasks the bucket is two such sorted
segments concatenated. -/
theorem due_sorted_stable_no_repeating (store : List Task) (q : Option String)
    (todayStr : String) (hnr : ∀ t ∈ store, t.repeating.enabled = false) :
    (handlerGetTasks store q todayStr).today.Pairwise dueLeProp ∧
    (∀ a b : Task, optDueLe a.due b.due = true →
      [a, b].Sublist ((handlerGetTasks store q todayStr).store.filter
        (todayPredB (q.getD todayStr))) →
      [a, b].Sublist (handlerGetTasks store q todayStr).today) := by
  have hnr1 : ∀ t ∈ (handlerGetTasks store q todayStr).store,
      t.repeating.enabled = false := by
    have e0 : (handlerGetTasks store q todayStr).store =
        (if q.getD todayStr = todayStr then store.map (sweep todayStr) else store) :=
      rfl
    rw [e0]
    split
    · intro t ht
      obtain ⟨x, hx, rfl⟩ := List.mem_map.mp ht
      rw [sweep_repeating]
      exact hnr x hx
    · exact hnr
  have hfil : (handlerGetTasks store q todayStr).store.filter repCandPredB = [] := by
    rw [List.filter_eq_nil_iff]
    intro t ht
    simp [repCandPredB, hnr1 t ht]
  have e3 : (handlerGetTasks store q todayStr).today
      = sortByDue ((handlerGetTasks store q todayStr).store.filter
          (todayPredB (q.getD todayStr)))
        ++ (((sortByDue ((handlerGetTasks store q todayStr).store.filter
              repCandPredB)).filter
            (fun u => repeatingAppliesOnDate u.repeating (q.getD todayStr))).filter
          (fun u => !(((sortByDue ((handlerGetTasks store q todayStr).store.filter
              (todayPredB (q.getD todayStr)))).map Task.id).contains u.id))) := rfl
  have htoday : (handlerGetTasks store q todayStr).today
      = sortByDue ((handlerGetTasks store q todayStr).store.filter
          (todayPredB (q.getD todayStr))) := by
    rw [e3, hfil]
    simp [sortByDue, List.insertionSort]
  constructor
  · rw [htoday]
    exact List.sorted_insertionSort dueLeProp _
  · intro a b hab hsub
    rw [htoday]
    exact List.pair_sublist_insertionSort hab hsub

theorem due_sorted_stable_no_repeating_witness :
    (handlerGetTasks [taskA, taskF] none "2024-01-02").today.Pairwise dueLeProp ∧
    optDueLe taskA.due taskF.due = true ∧
    [taskA, taskF].Sublist ((handlerGetTasks [taskA, taskF] none
      "2024-01-02").store.filter (todayPredB "2024-01-02")) ∧
    [taskA, taskF].Sublist (handlerGetTasks [taskA, taskF] none "2024-01-02").today :=
  ⟨(due_sorted_stable_no_repeating [taskA, taskF] none "2024-01-02" (by decide)).1,
   by decide, by decide,
   (due_sorted_stable_no_repeating [taskA, taskF] none "2024-01-02"
     (by decide)).2 taskA taskF (by decide) (by decide)⟩

/-! ### Extracted-task fixtures -/

/-- The record of the deletion scenario: account foo@bar.com, source
timestamp 2024-01-01T10:00:00. -/
def extA : ExtractedTask :=
  { id := "r1", title := "Call bank", source_account := "foo@bar.com",
    source_email_ts := some "2024-01-01T10:00:00" }

/-- The candidate id of the deletion scenario. -/
def cand5 : String := "foo@bar.com_2024-01-01T10:00:00"

/-- C5, counterexample: in the scenario of the claim the record is indeed
deleted with status 200, but the pair lookup of strategy 3 matches
nothing — the email regex greedily extracts "foo@bar.com_2024" from the
candidate — and the deletion happens through strategy 4, tagged
"by_ts". -/
theorem extractedDelete_strategy3_cex :
    strategy3 [extA] cand5 = none ∧
    (emailOf cand5).map String.mk = some "foo@bar.com_2024" ∧
    findTaskByIdOrFallback [extA] cand5 = some (extA, "by_ts") ∧
    extractedDeleteHandler [extA] (some cand5) =
      { store := [], status := 200, deletedId := some "r1",
        fallback := some "by_ts" } := by
  decide

/-- C5, amended: for any store in which the candidate
"foo@bar.com_2024-01-01T10:00:00" matches no id literally, the extracted
pair ("foo@bar.com_2024", timestamp) of strategy 3 matches nothing, and
the first record matching the timestamp alone is `r`, DELETE /extracted
deletes `r` through strategy 4 (timestamp-only) and responds 200 with
fallback reason "by_ts". -/
theorem extractedDelete_by_ts (store : List ExtractedTask) (r : ExtractedTask)
    (h2 : strategy2 store cand5 = none)
    (h3 : strategy3 store cand5 = none)
    (h4 : store.find? (fun t =>
      t.source_email_ts == some "2024-01-01T10:00:00") = some r) :
    (extractedDeleteHandler store (some cand5)).status = 200 ∧
    (extractedDeleteHandler store (some cand5)).fallback = some "by_ts" ∧
    (extractedDeleteHandler store (some cand5)).deletedId = some r.id ∧
    (extractedDeleteHandler store (some cand5)).store
      = store.eraseP (fun v => v.id == r.id) := by
  have h1 : strategy1 store cand5 = none := by
    have : isValidObjectId cand5 = false := by decide
    simp [strategy1, this]
  have hs4 : strategy4 store cand5 = some r := by
    have hts : isoTsOf cand5 = some ("2024-01-01T10:00:00".data) := by decide
    unfold strategy4
    rw [hts]
    exact h4
  have hres : findTaskByIdOrFallback store cand5 = some (r, "by_ts") := by
    have hne : ¬(cand5 = "") := by decide
    simp [findTaskByIdOrFallback, hne, h1, h2, h3, hs4]
  have hrmem : r ∈ store := List.mem_of_find?_eq_some h4
  rcases hfind : store.find? (fun u => u.id == r.id) with _ | u
  · exact absurd (by simp : (fun u : ExtractedTask => u.id == r.id) r = true)
      (List.find?_eq_none.mp hfind r hrmem)
  · have hu : u.id = r.id := by
      have := List.find?_some hfind
      simpa using this
    have hpred : (fun v : ExtractedTask => v.id == u.id)
        = (fun v : ExtractedTask => v.id == r.id) := by
      funext v
      rw [hu]
    have hne : ¬(cand5 = "") := by decide
    simp only [extractedDeleteHandler, if_neg hne, h1, h2, hres, hfind, hu, hpred]
    exact ⟨trivial, trivial, trivial, trivial⟩

theorem extractedDelete_by_ts_witness :
    strategy2 [extA] cand5 = none ∧
    strategy3 [extA] cand5 = none ∧
    [extA].find? (fun t =>
      t.source_email_ts == some "2024-01-01T10:00:00") = some extA ∧
    (extractedDeleteHandler [extA] (some cand5)).status = 200 ∧
    (extractedDeleteHandler [extA] (some cand5)).fallback = some "by_ts" := by
  refine ⟨by decide, by decide, by decide, ?_, ?_⟩
  · exact (extractedDelete_by_ts [extA] extA (by decide) (by decide) (by decide)).1
  · exact (extractedDelete_by_ts [extA] extA (by decide) (by decide) (by decide)).2.1

/-- C6: when none of the six strategies matches a record for a non-empty
candidate, the fallback resolver returns none (no error: each strategy
failure is already a caught non-match), and the PATCH and DELETE
/extracted handlers respond 404, leaving the store unchanged. -/
theorem resolver_no_match_404 (store : List ExtractedTask) (cand : String)
    (b : Option Bool) (hne : cand ≠ "")
    (h1 : strategy1 store cand = none) (h2 : strategy2 store cand = none)
    (h3 : strategy3 store cand = none) (h4 : strategy4 store cand = none)
    (h5 : strategy5 store cand = none) (h6 : strategy6 store cand = none) :
    findTaskByIdOrFallback store cand = none ∧
    (extractedDeleteHandler store (some cand)).status = 404 ∧
    (extractedDeleteHandler store (some cand)).store = store ∧
    (extractedPatchHandler store
      { id := some cand, addedToCalendar := b }).status = 404 ∧
    (extractedPatchHandler store
      { id := some cand, addedToCalendar := b }).store = store := by
  have hres : findTaskByIdOrFallback store cand = none := by
    simp [findTaskByIdOrFallback, hne, h1, h2, h3, h4, h5, h6]
  refine ⟨hres, ?_, ?_, ?_, ?_⟩ <;>
    simp [extractedDeleteHandler, extractedPatchHandler, hne, h1, h2, hres]

theorem resolver_no_match_404_witness :
    ("zz" : String) ≠ "" ∧
    strategy1 [extA] "zz" = none ∧ strategy2 [extA] "zz" = none ∧
    strategy3 [extA] "zz" = none ∧ strategy4 [extA] "zz" = none ∧
    strategy5 [extA] "zz" = none ∧ strategy6 [extA] "zz" = none ∧
    findTaskByIdOrFallback [extA] "zz" = none ∧
    (extractedDeleteHandler [extA] (some "zz")).status = 404 ∧
    (extractedPatchHandler [extA]
      { id := some "zz", addedToCalendar := some true }).status = 404 := by
  refine ⟨by decide, by decide, by decide, by decide, by decide, by decide,
    by decide, ?_, ?_, ?_⟩
  · exact (resolver_no_match_404 [extA] "zz" (some true) (by decide) (by decide)
      (by decide) (by decide) (by decide) (by decide) (by decide)).1
  · exact (resolver_no_match_404 [extA] "zz" (some true) (by decide) (by decide)
      (by decide) (by decide) (by decide) (by decide) (by decide)).2.1
  · exact (resolver_no_match_404 [extA] "zz" (some true) (by decide) (by decide)
      (by decide) (by decide) (by decide) (by decide) (by decide)).2.2.2.1

end TaskFlow
